import Mathlib

/-!
Shallow embedding of the concurrent scheduling and routing core of the
cc_sdk_knowledge_extractor repository: file categories and routing tables
(`src/core/constants.ts`), the extension router (`src/routing/file-router.ts`,
`SkillRegistry.getRoutingDecision`), the output path resolver
(`src/output/output-manager.ts`, `OutputManager.getOutputPath`), the recursive
scanner (`scanner.ts`), the priority queue (`async-queue.ts`, `AsyncQueue`),
the worker pool loop (`src/queue/worker-pool.ts`), and the per-course queue
building loop (`src/core/app.ts`, `App.processCourse`).

Paths are modelled as `/`-separated strings; the `node:path` helpers used by
the source (`join`, `relative`, `dirname`, `basename`, `extname`) are embedded
for normalized separator-joined inputs, which is what the scanner produces.
-/

/-! ## String primitives

Structurally recursive character-list versions of the string operations the
source uses (`toLowerCase`, `startsWith`, `endsWith`, `split`, slicing), so
that every definition evaluates by kernel reduction.  All inputs are ASCII
path/extension material, on which these agree with the JavaScript originals. -/

/-- `String.prototype.toLowerCase` for ASCII content. -/
def toLowerStr (s : String) : String :=
  String.mk (s.data.map Char.toLower)

/-- `String.prototype.startsWith`. -/
def startsWithStr (s pat : String) : Bool :=
  pat.data.isPrefixOf s.data

/-- `String.prototype.endsWith`. -/
def endsWithStr (s pat : String) : Bool :=
  pat.data.reverse.isPrefixOf s.data.reverse

/-- Split a character list on a separator character. -/
def splitOnCharAux (sep : Char) : List Char → List (List Char)
  | [] => [[]]
  | c :: rest =>
    let r := splitOnCharAux sep rest
    if c = sep then [] :: r
    else match r with
      | g :: gs => (c :: g) :: gs
      | [] => [[c]]

/-- `String.prototype.split` on a single-character separator. -/
def splitOnChar (sep : Char) (s : String) : List String :=
  (splitOnCharAux sep s.data).map String.mk

/-- Drop the last `n` characters. -/
def strDropRight (s : String) (n : Nat) : String :=
  String.mk (s.data.take (s.data.length - n))

/-- Join components with a separator (`Array.prototype.join`). -/
def joinWith (sep : String) : List String → String
  | [] => ""
  | [x] => x
  | x :: xs => x ++ sep ++ joinWith sep xs

/-- `FileCategory` from `src/types/index.ts`. -/
inductive FileCategory where
  | text | code | document | database | archive | image | html
  | video | audio | unknown
deriving DecidableEq

/-- `RoutingMethod` from `src/types/index.ts`. -/
inductive RoutingMethod where
  | passthrough | skill | archive | skip | unsupported
deriving DecidableEq

/-- `QueueItemStatus` from `src/types/index.ts`. -/
inductive QueueItemStatus where
  | pending | scanning | routing | processing | completed | failed | skipped
deriving DecidableEq

/-- `ProcessingStage` from `src/types/index.ts`. -/
inductive ProcessingStage where
  | scan | route | convert | validate | generate
deriving DecidableEq

/-- `ScannedFile` from `src/types/index.ts`. -/
structure ScannedFile where
  path : String
  relativePath : String
  name : String
  extension : String
  size : Nat
  category : FileCategory
  courseId : String
  coursePath : String
deriving DecidableEq

/-- `ProcessingError` from `src/types/index.ts` (structured `context` and
`stack` are carried opaquely by the source and dropped here). -/
structure ProcessingError where
  code : String
  message : String
  recoverable : Bool
deriving DecidableEq

/-- `RoutingDecision` from `src/types/index.ts`; `metadata` is the
record of string fields the router actually writes. -/
structure RoutingDecision where
  method : RoutingMethod
  skillName : Option String := none
  outputFormat : Option String := none
  metadata : List (String × String) := []
deriving DecidableEq

/-- `QueueItem` from `src/types/index.ts`.  The `Date` timestamps only record
that an instant was captured (`some ()`), they carry no claim-relevant data. -/
structure QueueItem where
  id : String
  file : ScannedFile
  status : QueueItemStatus
  stage : ProcessingStage
  priority : Int
  attempts : Nat
  maxAttempts : Nat
  routedTo : Option RoutingDecision := none
  outputPath : Option String := none
  error : Option ProcessingError := none
  startedAt : Option Unit := none
  completedAt : Option Unit := none
deriving DecidableEq

/-! ## Static tables (`src/core/constants.ts`) -/

/-- `FILE_EXTENSIONS`, in the source's object-literal order (which is the
iteration order of `Object.entries` in `categorizeFile`). -/
def FILE_EXTENSIONS : List (FileCategory × List String) :=
  [ (.text, [".txt", ".md", ".csv", ".json", ".xml", ".srt", ".vtt", ".yaml",
      ".yml", ".toml", ".ini", ".cfg", ".conf"]),
    (.code, [".ts", ".tsx", ".js", ".jsx", ".py", ".java", ".c", ".cpp", ".h",
      ".hpp", ".cs", ".go", ".rs", ".rb", ".php", ".swift", ".kt", ".scala",
      ".lua", ".sh", ".bash", ".ps1", ".bat", ".cmd", ".sql", ".r", ".m",
      ".f90", ".asm", ".s", ".pl", ".pm", ".tcl", ".vim", ".el", ".clj",
      ".ex", ".exs", ".erl", ".hs", ".ml", ".fs", ".v", ".sv", ".vhd",
      ".vhdl"]),
    (.document, [".pdf", ".docx", ".doc", ".pptx", ".ppt", ".xlsx", ".xls",
      ".odt", ".ods", ".odp"]),
    (.database, [".db", ".sqlite", ".sqlite3", ".mdb", ".accdb", ".dbf",
      ".h2"]),
    (.archive, [".zip", ".rar", ".7z", ".tar", ".gz", ".tgz", ".bz2", ".xz",
      ".tar.gz", ".tar.bz2", ".tar.xz"]),
    (.image, [".png", ".jpg", ".jpeg", ".gif", ".bmp", ".tiff", ".tif",
      ".webp", ".svg"]),
    (.html, [".html", ".htm", ".xhtml", ".mhtml"]),
    (.video, [".mp4", ".mkv", ".avi", ".mov", ".wmv", ".flv", ".webm",
      ".m4v", ".mpeg", ".mpg", ".3gp"]),
    (.audio, [".mp3", ".wav", ".flac", ".aac", ".ogg", ".wma", ".m4a",
      ".opus", ".aiff"]),
    (.unknown, []) ]

/-- Extension list of one category in `FILE_EXTENSIONS`. -/
def extensionsOf (c : FileCategory) : List String :=
  match (FILE_EXTENSIONS.find? (fun p => p.1 = c)) with
  | some p => p.2
  | none => []

/-- `SKIP_EXTENSIONS`: the video extensions followed by the audio ones. -/
def SKIP_EXTENSIONS : List String :=
  extensionsOf .video ++ extensionsOf .audio

/-- `TEXT_EXTENSIONS`: the text extensions followed by the code ones. -/
def TEXT_EXTENSIONS : List String :=
  extensionsOf .text ++ extensionsOf .code

/-- One entry of `SKILL_MAPPINGS`. -/
structure SkillMapping where
  skill : String
  outputFormat : String
deriving DecidableEq

/-- `SKILL_MAPPINGS` from `src/core/constants.ts`. -/
def SKILL_MAPPINGS : List (String × SkillMapping) :=
  [ (".pdf", ⟨"pdf", ".md"⟩),
    (".docx", ⟨"docx", ".md"⟩),
    (".doc", ⟨"docx", ".md"⟩),
    (".pptx", ⟨"pptx", ".md"⟩),
    (".ppt", ⟨"pptx", ".md"⟩),
    (".xlsx", ⟨"xlsx-processor", ".csv"⟩),
    (".xls", ⟨"xlsx-processor", ".csv"⟩),
    (".db", ⟨"db-identify", ".csv"⟩),
    (".sqlite", ⟨"db-identify", ".csv"⟩),
    (".sqlite3", ⟨"db-identify", ".csv"⟩),
    (".mdb", ⟨"db-identify", ".csv"⟩),
    (".accdb", ⟨"db-identify", ".csv"⟩),
    (".html", ⟨"html2markdown", ".md"⟩),
    (".htm", ⟨"html2markdown", ".md"⟩),
    (".png", ⟨"image-ocr", ".txt"⟩),
    (".jpg", ⟨"image-ocr", ".txt"⟩),
    (".jpeg", ⟨"image-ocr", ".txt"⟩),
    (".gif", ⟨"image-ocr", ".txt"⟩),
    (".bmp", ⟨"image-ocr", ".txt"⟩),
    (".tiff", ⟨"image-ocr", ".txt"⟩),
    (".tif", ⟨"image-ocr", ".txt"⟩),
    (".zip", ⟨"archive-extractor", "directory"⟩),
    (".rar", ⟨"archive-extractor", "directory"⟩),
    (".7z", ⟨"archive-extractor", "directory"⟩),
    (".tar", ⟨"archive-extractor", "directory"⟩),
    (".gz", ⟨"archive-extractor", "directory"⟩),
    (".tgz", ⟨"archive-extractor", "directory"⟩),
    (".tar.gz", ⟨"archive-extractor", "directory"⟩),
    (".tar.bz2", ⟨"archive-extractor", "directory"⟩) ]

/-- Lookup in `SKILL_MAPPINGS` (the source indexes the record by key). -/
def lookupSkillMapping : List (String × SkillMapping) → String → Option SkillMapping
  | [], _ => none
  | p :: ps, k => if p.1 = k then some p.2 else lookupSkillMapping ps k

/-! ## Router (`SkillRegistry.getRoutingDecision`, `src/routing/file-router.ts`) -/

namespace SkillRegistry

/-- `SkillRegistry.getRoutingDecision`: skip-set, then text/code passthrough
set, then the skill table (with the archive special case), then `unsupported`. -/
def getRoutingDecision (extension : String) : RoutingDecision :=
  let ext := toLowerStr extension
  if ext ∈ SKIP_EXTENSIONS then
    { method := .skip, metadata := [("reason", "Video/audio files are skipped")] }
  else if ext ∈ TEXT_EXTENSIONS then
    { method := .passthrough, outputFormat := some ext }
  else
    match lookupSkillMapping SKILL_MAPPINGS ext with
    | some mapping =>
      if mapping.outputFormat = "directory" then
        { method := .archive, skillName := some mapping.skill,
          outputFormat := some mapping.outputFormat }
      else
        { method := .skill, skillName := some mapping.skill,
          outputFormat := some mapping.outputFormat }
    | none => { method := .unsupported, metadata := [("extension", ext)] }

end SkillRegistry

/-! ## Path helpers (`node:path` on normalized `/`-separated inputs) -/

/-- Drop leading `/` characters of a character list. -/
def dropLeadingSlashChars : List Char → List Char
  | '/' :: cs => dropLeadingSlashChars cs
  | cs => cs

/-- Strip trailing `/` characters (the normalization `node:path.join` applies
to its first argument). -/
def dropTrailingSlashes (s : String) : String :=
  String.mk (dropLeadingSlashChars s.data.reverse).reverse

/-- `node:path.join dir name` for a relative `name`. -/
def joinPath (a b : String) : String :=
  if a = "" then b else dropTrailingSlashes a ++ "/" ++ b

/-- Drop the common leading components of two component lists. -/
def dropCommonComponents : List String → List String → List String × List String
  | a :: as, b :: bs =>
    if a = b then dropCommonComponents as bs else (a :: as, b :: bs)
  | as, bs => (as, bs)

/-- `node:path.relative` for already-normalized absolute-style paths. -/
def relativePath (fromPath toPath : String) : String :=
  let fa := (splitOnChar '/' fromPath).filter (fun c => c ≠ "")
  let ta := (splitOnChar '/' toPath).filter (fun c => c ≠ "")
  let (fr, tr) := dropCommonComponents fa ta
  joinWith "/" (fr.map (fun _ => "..") ++ tr)

/-- `node:path.dirname` for relative separator-joined paths. -/
def dirnameOf (p : String) : String :=
  let parts := splitOnChar '/' p
  if parts.length ≤ 1 then "." else joinWith "/" parts.dropLast

/-- `node:path.basename name ext`: the last component, with the suffix `ext`
removed when it is a proper suffix. -/
def basenameStrip (p ext : String) : String :=
  let base := match (splitOnChar '/' p).getLast? with
    | some b => b
    | none => p
  if ext ≠ "" ∧ endsWithStr base ext ∧ base ≠ ext then
    strDropRight base ext.length
  else base

/-- The regex replace `[\\/] -> _` used to flatten directory prefixes. -/
def flattenSeparators (s : String) : String :=
  String.mk (s.data.map (fun c => if c = '/' ∨ c = '\\' then '_' else c))

/-! ## Output path resolver (`OutputManager.getOutputPath`,
`src/output/output-manager.ts`) -/

namespace OutputManager

/-- `OutputManager.getOutputPath`: relative path from the course root, the
directory part flattened with `_`, the extension rewritten unless the
override is absent, empty, or `"directory"`. -/
def getOutputPath (file : ScannedFile) (outputDir : String)
    (outputFormat : Option String) : String :=
  let relPath := relativePath file.coursePath file.path
  let relDir := dirnameOf relPath
  let pfx := if relDir ≠ "" ∧ relDir ≠ "." then flattenSeparators relDir ++ "_" else ""
  let currentExt := file.extension
  let newExt := match outputFormat with
    | some f => if f ≠ "" ∧ f ≠ "directory" then f else currentExt
    | none => currentExt
  let baseName := basenameStrip file.name currentExt
  joinPath outputDir (pfx ++ baseName ++ newExt)

end OutputManager

/-! ## Scanner (`scanner.ts`) -/

namespace Scanner

/-- A directory tree as the scanner observes it through `readdirSync` and
`statSync`: regular files with byte sizes, directories with their entries in
directory order. -/
inductive FSEntry where
  | file (name : String) (size : Nat)
  | dir (name : String) (entries : List FSEntry)

/-- The last-`.` suffix of a bare file name, per `node:path.extname`: a dot at
position 0 does not start an extension. -/
def extnameOf (name : String) : String :=
  match name.data with
  | [] => ""
  | _ :: rest =>
    match lastDotSuffix rest with
    | some suffix => String.mk suffix
    | none => ""
where
  /-- The suffix starting at the last `.` of a character list, if any. -/
  lastDotSuffix : List Char → Option (List Char)
    | [] => none
    | c :: cs =>
      match lastDotSuffix cs with
      | some suffix => some suffix
      | none => if c = '.' then some (c :: cs) else none

/-- `Scanner.getExtension`: compound suffixes (`.tar.gz`, `.tar.bz2`,
`.tar.xz`) checked on the lower-cased name first, then
`extname(filename).toLowerCase()`. -/
def getExtension (filename : String) : String :=
  let lowerName := toLowerStr filename
  if endsWithStr lowerName ".tar.gz" then ".tar.gz"
  else if endsWithStr lowerName ".tar.bz2" then ".tar.bz2"
  else if endsWithStr lowerName ".tar.xz" then ".tar.xz"
  else toLowerStr (extnameOf filename)

/-- `Scanner.categorizeFile`: the first category of `FILE_EXTENSIONS` whose
list contains the extension, defaulting to `unknown`. -/
def categorizeFile (extension : String) : FileCategory :=
  go FILE_EXTENSIONS
where
  go : List (FileCategory × List String) → FileCategory
    | [] => .unknown
    | (cat, exts) :: rest => if extension ∈ exts then cat else go rest

/-- The options record `ScanOptions` plus the constructor-compiled exclusion
patterns, modelled as decidable predicates on the full path. -/
structure ScanOptions where
  recursive : Bool := true
  includeHidden : Bool := false
  excludeTests : List (String → Bool) := []

/-- `Scanner.shouldExclude`. -/
def shouldExclude (opts : ScanOptions) (path : String) : Bool :=
  opts.excludeTests.any (fun t => t path)

/-- The per-entry skip applied before `statSync`: hidden entries unless
`includeHidden`, and `__cc`-prefixed entries. -/
def skipsEntryName (opts : ScanOptions) (name : String) : Bool :=
  (!opts.includeHidden && startsWithStr name ".") || startsWithStr name "__cc"

/-- The `ScannedFile` record pushed by `scanRecursive` for a regular file. -/
def mkScannedFile (courseId coursePath fullPath name : String) (size : Nat) :
    ScannedFile :=
  let ext := getExtension name
  { path := fullPath,
    relativePath := relativePath coursePath fullPath,
    name := name,
    extension := ext,
    size := size,
    category := categorizeFile ext,
    courseId := courseId,
    coursePath := coursePath }

/-- `Scanner.scanRecursive`, as a function from the entry list of the current
directory to the `ScannedFile`s appended to the shared array, in traversal
order.  Files categorized `video` or `audio` are dropped. -/
def scanList (opts : ScanOptions) (courseId coursePath : String) :
    String → List FSEntry → List ScannedFile
  | _, [] => []
  | currentPath, .file name size :: rest =>
    (if skipsEntryName opts name then []
     else
       let fullPath := joinPath currentPath name
       if shouldExclude opts fullPath then []
       else
         let f := mkScannedFile courseId coursePath fullPath name size
         if f.category = .video ∨ f.category = .audio then [] else [f])
    ++ scanList opts courseId coursePath currentPath rest
  | currentPath, .dir name entries :: rest =>
    (if skipsEntryName opts name then []
     else
       let fullPath := joinPath currentPath name
       if shouldExclude opts fullPath then []
       else if opts.recursive then
         scanList opts courseId coursePath fullPath entries
       else [])
    ++ scanList opts courseId coursePath currentPath rest

/-- `Scanner.scanDirectory` for an existing root with entry list `entries`. -/
def scanDirectory (opts : ScanOptions) (dirPath courseId coursePath : String)
    (entries : List FSEntry) : List ScannedFile :=
  scanList opts courseId coursePath dirPath entries

end Scanner

/-! ## Per-course queue building (`App.processCourse`, `src/core/app.ts`) -/

/-- `createQueueItem` (`async-queue.ts`) as called by `processCourse`: fresh
opaque id (`crypto.randomUUID()` modelled by an id supply counter), status
`pending`, stage `convert`, default priority 0 and `maxAttempts` 3; the
routing decision and output path are assigned right after creation. -/
def createQueueItem (idSupply : Nat) (f : ScannedFile) (d : RoutingDecision)
    (outputPath : String) : QueueItem :=
  { id := "item-" ++ toString idSupply,
    file := f,
    status := .pending,
    stage := .convert,
    priority := 0,
    attempts := 0,
    maxAttempts := 3,
    routedTo := some d,
    outputPath := some outputPath }

/-- The routing-and-filtering loop of `App.processCourse`: `unsupported`
files produce a warning `(message, path)` and are not queued, `skip` files
are silently dropped, every other file becomes a `QueueItem` whose output
path is resolved under the course's validated-files directory. -/
def buildQueueItems (validatedFilesPath : String) :
    List ScannedFile → Nat → List (String × String) × List QueueItem
  | [], _ => ([], [])
  | f :: fs, idSupply =>
    let d := SkillRegistry.getRoutingDecision f.extension
    if d.method = .unsupported then
      let (ws, items) := buildQueueItems validatedFilesPath fs idSupply
      (("Unsupported file type: " ++ f.extension, f.path) :: ws, items)
    else if d.method = .skip then
      buildQueueItems validatedFilesPath fs idSupply
    else
      let outputPath := OutputManager.getOutputPath f validatedFilesPath d.outputFormat
      let item := createQueueItem idSupply f d outputPath
      let (ws, items) := buildQueueItems validatedFilesPath fs (idSupply + 1)
      (ws, item :: items)

/-! ## Priority queue (`AsyncQueue`, `async-queue.ts`)

The queue's mutable state, with each method embedded as a pure state
transformer.  `processing` is the id `Set`, `completed`/`failed`/`skipped`
are the id-keyed `Map`s, `waiters` the FIFO list of suspended `dequeue`
callers (identified by opaque numbers from `nextWaiterId`); resolving a
waiter is recorded as a delivery `(waiterId, item)`. -/

namespace AsyncQueue

/-- The private fields of `AsyncQueue`. -/
structure State where
  items : List QueueItem
  processing : List String
  completed : List (String × QueueItem)
  failed : List (String × QueueItem)
  skipped : List (String × QueueItem)
  closed : Bool
  waiters : List Nat
  nextWaiterId : Nat
  maxConcurrent : Nat
deriving DecidableEq

/-- `new AsyncQueue(maxConcurrent)`. -/
def init (maxConcurrent : Nat) : State :=
  { items := [], processing := [], completed := [], failed := [], skipped := [],
    closed := false, waiters := [], nextWaiterId := 0,
    maxConcurrent := maxConcurrent }

/-- `Set.add`: insert the id unless already present. -/
def addProc (l : List String) (id : String) : List String :=
  if id ∈ l then l else l ++ [id]

/-- `Set.delete`: remove the id (set semantics). -/
def removeProc (l : List String) (id : String) : List String :=
  l.filter (fun x => x ≠ id)

/-- `Map.set`: replace the binding in place, or append a new one. -/
def mapSet : List (String × QueueItem) → String → QueueItem →
    List (String × QueueItem)
  | [], k, v => [(k, v)]
  | p :: ps, k, v => if p.1 = k then (k, v) :: ps else p :: mapSet ps k v

/-- `Map.get`. -/
def mapFind : List (String × QueueItem) → String → Option QueueItem
  | [], _ => none
  | p :: ps, k => if p.1 = k then some p.2 else mapFind ps k

/-- Stable insertion into a priority-ascending list: the new item goes after
every element whose priority is less than or equal to its own. -/
def insertItem (x : QueueItem) : List QueueItem → List QueueItem
  | [] => [x]
  | y :: ys => if x.priority < y.priority then x :: y :: ys else y :: insertItem x ys

/-- `this.items.sort((a, b) => a.priority - b.priority)`: JavaScript's
`Array.prototype.sort` is stable, so the sorted array is the unique
priority-ascending, arrival-stable reordering, computed here by stable
insertion sort. -/
def sortItems (l : List QueueItem) : List QueueItem :=
  l.foldl (fun acc x => insertItem x acc) []

/-- Result of the `notifyWaiters` loop on the mutable fields it touches. -/
structure NotifyRes where
  waiters : List Nat
  items : List QueueItem
  processing : List String
  delivered : List (Nat × QueueItem)

/-- The `while` loop of `notifyWaiters`: while a waiter and an item exist and
capacity remains, shift both, mark the item processing, resolve the waiter. -/
def notifyAux (maxConcurrent : Nat) :
    List Nat → List QueueItem → List String → NotifyRes
  | w :: ws, it :: its, proc =>
    if proc.length < maxConcurrent then
      let r := notifyAux maxConcurrent ws its (addProc proc it.id)
      { r with delivered := (w, it) :: r.delivered }
    else { waiters := w :: ws, items := it :: its, processing := proc, delivered := [] }
  | ws, its, proc => { waiters := ws, items := its, processing := proc, delivered := [] }

/-- `AsyncQueue.notifyWaiters`. -/
def notifyWaiters (s : State) : State × List (Nat × QueueItem) :=
  let r := notifyAux s.maxConcurrent s.waiters s.items s.processing
  ({ s with waiters := r.waiters, items := r.items, processing := r.processing },
   r.delivered)

/-- `AsyncQueue.enqueue`: throws (`none`) on a closed queue, otherwise pushes,
re-sorts by priority, and notifies. -/
def enqueue (s : State) (item : QueueItem) :
    Option (State × List (Nat × QueueItem)) :=
  if s.closed then none
  else some (notifyWaiters { s with items := sortItems (s.items ++ [item]) })

/-- `AsyncQueue.enqueueMany`. -/
def enqueueMany (s : State) (newItems : List QueueItem) :
    Option (State × List (Nat × QueueItem)) :=
  if s.closed then none
  else some (notifyWaiters { s with items := sortItems (s.items ++ newItems) })

/-- What one `dequeue` call observes. -/
inductive DequeueOut where
  | sentinel
  | got (item : QueueItem)
  | suspended (waiterId : Nat)
deriving DecidableEq

/-- `AsyncQueue.dequeue`: `null` when closed with no pending items; otherwise
the head pending item when capacity remains; otherwise `null` when closed
(the returned promise resolves immediately) or suspension as a new waiter.
The source's three checks (`closed && empty`, fast path, promise) are split
on the pending list first, which decides the same outcome in each case. -/
def dequeue (s : State) : DequeueOut × State :=
  match s.items with
  | [] =>
    if s.closed then (.sentinel, s)
    else (.suspended s.nextWaiterId,
      { s with waiters := s.waiters ++ [s.nextWaiterId],
               nextWaiterId := s.nextWaiterId + 1 })
  | item :: rest =>
    if s.processing.length < s.maxConcurrent then
      (.got item, { s with items := rest, processing := addProc s.processing item.id })
    else if s.closed then (.sentinel, s)
    else (.suspended s.nextWaiterId,
      { s with waiters := s.waiters ++ [s.nextWaiterId],
               nextWaiterId := s.nextWaiterId + 1 })

/-- `AsyncQueue.markCompleted`. -/
def markCompleted (s : State) (item : QueueItem) :
    State × List (Nat × QueueItem) :=
  let item' := { item with status := .completed, completedAt := some () }
  notifyWaiters
    { s with processing := removeProc s.processing item.id,
             completed := mapSet s.completed item.id item' }

/-- `AsyncQueue.markFailed`: records the error with `recoverable` forced to
`false` and the item in the `failed` map. -/
def markFailed (s : State) (item : QueueItem) (code message : String) :
    State × List (Nat × QueueItem) :=
  let e : ProcessingError := { code := code, message := message, recoverable := false }
  let item' := { item with status := .failed, completedAt := some (), error := some e }
  notifyWaiters
    { s with processing := removeProc s.processing item.id,
             failed := mapSet s.failed item.id item' }

/-- `AsyncQueue.markSkipped`. -/
def markSkipped (s : State) (item : QueueItem) (reason : String) :
    State × List (Nat × QueueItem) :=
  let e : ProcessingError := { code := "SKIPPED", message := reason, recoverable := false }
  let item' := { item with status := .skipped, completedAt := some (), error := some e }
  notifyWaiters
    { s with processing := removeProc s.processing item.id,
             skipped := mapSet s.skipped item.id item' }

/-- `AsyncQueue.requeue`: increment `attempts`; below the maximum, reinsert as
`pending` (push + stable re-sort, so at the original priority) and notify;
otherwise `markFailed` with the fixed `MAX_ATTEMPTS` code, then the trailing
notify. -/
def requeue (s : State) (item : QueueItem) : State × List (Nat × QueueItem) :=
  let proc := removeProc s.processing item.id
  let item' := { item with attempts := item.attempts + 1 }
  if item'.attempts < item'.maxAttempts then
    let item'' := { item' with status := QueueItemStatus.pending }
    notifyWaiters
      { s with processing := proc, items := sortItems (s.items ++ [item'']) }
  else
    let r1 := markFailed { s with processing := proc } item'
      "MAX_ATTEMPTS"
      ("Exceeded max attempts (" ++ toString item'.maxAttempts ++ ")")
    let r2 := notifyWaiters r1.1
    (r2.1, r1.2 ++ r2.2)

/-- `AsyncQueue.close`: set `closed` and resolve every suspended waiter with
the `null` sentinel. -/
def close (s : State) : State × List (Nat × Option QueueItem) :=
  ({ s with closed := true, waiters := [] },
   s.waiters.map (fun w => (w, none)))

/-- The states of a queue created with concurrency limit `W` that the queue's
own operations can produce: every reachable state arises from `init W` by a
finite sequence of (successful) `enqueue`/`enqueueMany`, `dequeue`,
`markCompleted`, `markFailed`, `markSkipped`, `requeue` and `close` calls. -/
inductive Reachable (W : Nat) : State → Prop where
  | init : Reachable W (init W)
  | enqueue {s s' ds item} : Reachable W s →
      enqueue s item = some (s', ds) → Reachable W s'
  | enqueueMany {s s' ds newItems} : Reachable W s →
      enqueueMany s newItems = some (s', ds) → Reachable W s'
  | dequeue {s} : Reachable W s → Reachable W (dequeue s).2
  | markCompleted {s item} : Reachable W s → Reachable W (markCompleted s item).1
  | markFailed {s item code message} : Reachable W s →
      Reachable W (markFailed s item code message).1
  | markSkipped {s item reason} : Reachable W s →
      Reachable W (markSkipped s item reason).1
  | requeue {s item} : Reachable W s → Reachable W (requeue s item).1
  | close {s} : Reachable W s → Reachable W (close s).1

end AsyncQueue

/-! ## Worker pool (`WorkerPool`, `src/queue/worker-pool.ts`)

The pool owns `workerCount` loops over one `AsyncQueue` built with
`maxConcurrent = workerCount`.  The external processor is a parameter: it
either returns a result (success flag plus its effect on `item.error` — the
collaborator owns that field for clean failures) or throws.  A single worker
loop is deterministic, which covers every `workerCount = 1` scenario. -/

namespace WorkerPool

/-- Outcome of one `await this.processor(item)` call. -/
inductive ProcEffect where
  | result (success : Bool) (errAfter : Option ProcessingError → Option ProcessingError)
  | thrown (message : String)

/-- One entry of `this.results` (the fields the claims observe: which item
and whether the attempt succeeded). -/
structure PRes where
  itemId : String
  success : Bool
deriving DecidableEq

/-- A worker loop's view: the shared queue, the shared `results` array, and
the trace of items it received from `dequeue` (one per acquire-and-process
cycle). -/
structure RunState where
  q : AsyncQueue.State
  results : List PRes
  acquired : List QueueItem
deriving DecidableEq

/-- `item.error?.recoverable` with optional chaining. -/
def errRecoverable (item : QueueItem) : Bool :=
  match item.error with
  | some e => e.recoverable
  | none => false

/-- `item.error ?? { code: "UNKNOWN", message: "Unknown error" }`. -/
def failCodeMsg (item : QueueItem) : String × String :=
  match item.error with
  | some e => (e.code, e.message)
  | none => ("UNKNOWN", "Unknown error")

/-- One iteration of `WorkerPool.workerLoop`: dequeue (`none` = loop exit on
the sentinel; a suspension never resumes inside a single deterministic loop),
mark the item processing/started, run the processor (a throw is caught and
recorded as a non-recoverable `PROCESSOR_ERROR` on the item), then
`markCompleted` / `requeue` / `markFailed` and push the result. -/
def workerCycle (proc : QueueItem → ProcEffect) (rs : RunState) :
    Option RunState :=
  match AsyncQueue.dequeue rs.q with
  | (.sentinel, _) => none
  | (.suspended _, _) => none
  | (.got item, q1) =>
    let item1 := { item with status := QueueItemStatus.processing, startedAt := some () }
    let (success, item2) :=
      match proc item1 with
      | .result success errAfter => (success, { item1 with error := errAfter item1.error })
      | .thrown message =>
        let e : ProcessingError :=
          { code := "PROCESSOR_ERROR", message := message, recoverable := false }
        (false, { item1 with error := some e })
    let q2 :=
      if success then (AsyncQueue.markCompleted q1 item2).1
      else if errRecoverable item2 ∧ item2.attempts < item2.maxAttempts then
        (AsyncQueue.requeue q1 item2).1
      else
        (AsyncQueue.markFailed q1 item2 (failCodeMsg item2).1 (failCodeMsg item2).2).1
    some { q := q2,
           results := rs.results ++ [{ itemId := item2.id, success := success }],
           acquired := rs.acquired ++ [item1] }

/-- The worker loop, fuelled: runs cycles until the sentinel (or fuel runs
out; every scenario below supplies more fuel than cycles). -/
def runLoop (proc : QueueItem → ProcEffect) : Nat → RunState → RunState
  | 0, rs => rs
  | fuel + 1, rs =>
    match workerCycle proc rs with
    | none => rs
    | some rs' => runLoop proc fuel rs'

/-- `waitForCompletion` for a single-worker pool whose items were submitted
while it ran: close the queue, then drain the loop and collect `results`. -/
def waitForCompletion1 (proc : QueueItem → ProcEffect) (fuel : Nat)
    (q : AsyncQueue.State) : RunState :=
  runLoop proc fuel { q := (AsyncQueue.close q).1, results := [], acquired := [] }

end WorkerPool

/-! ## Concrete scenario fixtures -/

/-- A placeholder source file for queue scenarios (the queue never inspects
it). -/
def demoFile : ScannedFile :=
  { path := "/in/c1/notes.txt", relativePath := "notes.txt", name := "notes.txt",
    extension := ".txt", size := 1, category := .text, courseId := "c1",
    coursePath := "/in/c1" }

/-- A pending queue item with a given id and priority. -/
def demoItem (id : String) (priority : Int) : QueueItem :=
  { id := id, file := demoFile, status := .pending, stage := .convert,
    priority := priority, attempts := 0, maxAttempts := 3 }

/-- Scenario A: the queue (concurrency 1) after submitting five items with
priorities `[3, 1, 2, 1, 0]` in that order. -/
def scenarioAQueue : AsyncQueue.State :=
  let submit := fun (s : AsyncQueue.State) (it : QueueItem) =>
    match AsyncQueue.enqueue s it with
    | some (s', _) => s'
    | none => s
  let s0 := AsyncQueue.init 1
  let s1 := submit s0 (demoItem "a" 3)
  let s2 := submit s1 (demoItem "b" 1)
  let s3 := submit s2 (demoItem "c" 2)
  let s4 := submit s3 (demoItem "d" 1)
  submit s4 (demoItem "e" 0)

/-- The always-succeeding processor (leaves `item.error` untouched). -/
def alwaysOk : QueueItem → WorkerPool.ProcEffect :=
  fun _ => .result true (fun e => e)

/-- Scenario B's processor: always returns `success: false` after recording a
recoverable error on the item. -/
def alwaysRecoverableFail : QueueItem → WorkerPool.ProcEffect :=
  fun _ => .result false
    (fun _ => some { code := "CONVERT_FAILED", message := "conversion failed",
                     recoverable := true })

/-- A processor that always throws. -/
def alwaysThrows : QueueItem → WorkerPool.ProcEffect :=
  fun _ => .thrown "boom"

/-- Scenario B: a single item with `maxAttempts = 3` on a concurrency-1
queue. -/
def scenarioBQueue : AsyncQueue.State :=
  match AsyncQueue.enqueue (AsyncQueue.init 1) (demoItem "x" 0) with
  | some (s', _) => s'
  | none => AsyncQueue.init 1

/-- Two items for the thrown-exception scenario. -/
def scenarioCQueue : AsyncQueue.State :=
  match AsyncQueue.enqueueMany (AsyncQueue.init 1)
      [demoItem "y" 0, demoItem "z" 1] with
  | some (s', _) => s'
  | none => AsyncQueue.init 1

/-- The pending list is in ascending priority order. -/
def PrioritySorted (l : List QueueItem) : Prop :=
  List.Pairwise (fun a b => a.priority ≤ b.priority) l

/-- The subsequence of pending items carrying one fixed priority value; a
stable reordering preserves each such subsequence, which is exactly the
"equal-priority items preserve arrival order" reading. -/
def filterPriority (p : Int) (l : List QueueItem) : List QueueItem :=
  l.filter (fun it => it.priority = p)

/-- The concurrency invariant of a queue created with limit `W`: the limit
field still reads `W` and at most `W` ids are in the `processing` set. -/
def InvQ (W : Nat) (s : AsyncQueue.State) : Prop :=
  s.maxConcurrent = W ∧ s.processing.length ≤ W

/-- Scenario A executed: one worker drains the closed queue, completing every
item. -/
def scenarioARun : WorkerPool.RunState :=
  WorkerPool.waitForCompletion1 alwaysOk 10 scenarioAQueue

/-- Scenario B executed: one worker drains the closed queue against the
always-recoverably-failing processor. -/
def scenarioBRun : WorkerPool.RunState :=
  WorkerPool.waitForCompletion1 alwaysRecoverableFail 10 scenarioBQueue

/-- The thrown-exception scenario executed: one worker drains two items
against the always-throwing processor. -/
def scenarioThrowRun : WorkerPool.RunState :=
  WorkerPool.waitForCompletion1 alwaysThrows 10 scenarioCQueue

/-- A reachable queue state that is closed, has no pending items, and still
has one item processing: enqueue one item, dequeue it, close. -/
def closedDrainedState : AsyncQueue.State :=
  let s0 := AsyncQueue.init 1
  let s1 := match AsyncQueue.enqueue s0 (demoItem "a" 0) with
    | some (s, _) => s
    | none => s0
  let s2 := (AsyncQueue.dequeue s1).2
  (AsyncQueue.close s2).1

/-- Scenario D's file: scanned at `CODE/project1/main.cpp` under its course
root. -/
def scenarioDFile : ScannedFile :=
  { path := "/input/course1/CODE/project1/main.cpp",
    relativePath := "CODE/project1/main.cpp",
    name := "main.cpp",
    extension := ".cpp",
    size := 100,
    category := .code,
    courseId := "course1",
    coursePath := "/input/course1" }

/-- A small directory tree mixing kept and skipped files. -/
def demoTree : List Scanner.FSEntry :=
  [ .file "a.txt" 1,
    .dir "sub" [ .file "clip.mp4" 50, .file "b.md" 2 ],
    .file "song.mp3" 30 ]

/-- An unsupported-extension file for router witnesses. -/
def demoUnsupportedFile : ScannedFile :=
  { path := "/in/c1/blob.xyz", relativePath := "blob.xyz", name := "blob.xyz",
    extension := ".xyz", size := 3, category := .unknown, courseId := "c1",
    coursePath := "/in/c1" }

/-! # Theorems -/

/-! ## Helper lemmas -/

theorem buildQueueItems_not_unsupported (vpath : String) :
    ∀ (files : List ScannedFile) (idSupply : Nat) (q : QueueItem),
      q ∈ (buildQueueItems vpath files idSupply).2 →
      (SkillRegistry.getRoutingDecision q.file.extension).method ≠ .unsupported := by
  intro files
  induction files with
  | nil => intro idSupply q hq; simp [buildQueueItems] at hq
  | cons f fs ih =>
    intro idSupply q hq
    simp only [buildQueueItems] at hq
    by_cases h1 : (SkillRegistry.getRoutingDecision f.extension).method = RoutingMethod.unsupported
    · simp [h1] at hq
      exact ih idSupply q hq
    · simp [h1] at hq
      by_cases h2 : (SkillRegistry.getRoutingDecision f.extension).method = RoutingMethod.skip
      · simp [h2] at hq
        exact ih idSupply q hq
      · simp [h2] at hq
        rcases hq with hq | hq
        · subst hq
          simpa [createQueueItem] using h1
        · exact ih (idSupply + 1) q hq

theorem buildQueueItems_warns (vpath : String) :
    ∀ (files : List ScannedFile) (idSupply : Nat) (f : ScannedFile),
      f ∈ files →
      (SkillRegistry.getRoutingDecision f.extension).method = .unsupported →
      ("Unsupported file type: " ++ f.extension, f.path) ∈
        (buildQueueItems vpath files idSupply).1 := by
  intro files
  induction files with
  | nil => intro idSupply f hf; simp at hf
  | cons g gs ih =>
    intro idSupply f hf hm
    simp only [buildQueueItems]
    rcases List.mem_cons.mp hf with hf | hf
    · subst hf
      simp [hm]
    · by_cases h1 : (SkillRegistry.getRoutingDecision g.extension).method = RoutingMethod.unsupported
      · simp [h1]
        right
        exact ih idSupply f hf hm
      · simp [h1]
        by_cases h2 : (SkillRegistry.getRoutingDecision g.extension).method = RoutingMethod.skip
        · simp [h2]
          exact ih idSupply f hf hm
        · simp [h2]
          exact ih (idSupply + 1) f hf hm

/-! ## C5 -/

/-- C5, counterexample: the file scanned at relative path
`CODE/project1/main.cpp` with destination root `out/` and no output-format
override does *not* resolve to `out/project1_main.cpp`; the resolver keeps
the `CODE` directory segment in the flattened prefix. -/
theorem c5_counterexample :
    OutputManager.getOutputPath scenarioDFile "out/" none ≠ "out/project1_main.cpp" := by
  decide

/-- C5, amended: the file scanned at relative path `CODE/project1/main.cpp`
under its course root, with destination root `out/` and no output-format
override, resolves to `out/CODE_project1_main.cpp` (every directory segment
of the relative path, including `CODE`, is flattened into the underscore
prefix). -/
theorem c5_path_flattening :
    OutputManager.getOutputPath scenarioDFile "out/" none = "out/CODE_project1_main.cpp" := by
  decide

/-! ## C8 -/

/-- C8: the output path resolver of `OutputManager.getOutputPath` is a pure
function of the `ScannedFile`, the destination root, and the optional
output-format override — it reads no other state, so two calls with
identical arguments return identical strings. -/
theorem c8_resolver_deterministic :
    ∀ (f : ScannedFile) (root : String) (fmt : Option String),
      OutputManager.getOutputPath f root fmt = OutputManager.getOutputPath f root fmt :=
  fun _ _ _ => rfl

/-! ## C6 -/

/-- C6: routing decisions are checked in order skip-set →
text/code passthrough-set → skill-table → default `unsupported`; every
extension absent from all three tables routes to `unsupported`, and a file
with an `unsupported` decision is never turned into a queue item by the
`processCourse` loop — it produces a warning entry instead. -/
theorem c6_unsupported_never_queued :
    (∀ ext : String, toLowerStr ext ∉ SKIP_EXTENSIONS → toLowerStr ext ∉ TEXT_EXTENSIONS →
      lookupSkillMapping SKILL_MAPPINGS (toLowerStr ext) = none →
      (SkillRegistry.getRoutingDecision ext).method = .unsupported)
    ∧ (∀ ext : String, toLowerStr ext ∈ SKIP_EXTENSIONS →
        (SkillRegistry.getRoutingDecision ext).method = .skip)
    ∧ (∀ ext : String, toLowerStr ext ∉ SKIP_EXTENSIONS → toLowerStr ext ∈ TEXT_EXTENSIONS →
        (SkillRegistry.getRoutingDecision ext).method = .passthrough)
    ∧ (∀ (ext : String) (m : SkillMapping), toLowerStr ext ∉ SKIP_EXTENSIONS →
        toLowerStr ext ∉ TEXT_EXTENSIONS →
        lookupSkillMapping SKILL_MAPPINGS (toLowerStr ext) = some m →
        (SkillRegistry.getRoutingDecision ext).method =
          (if m.outputFormat = "directory" then .archive else .skill))
    ∧ (∀ (vpath : String) (files : List ScannedFile) (idSupply : Nat) (q : QueueItem),
        q ∈ (buildQueueItems vpath files idSupply).2 →
        (SkillRegistry.getRoutingDecision q.file.extension).method ≠ .unsupported)
    ∧ (∀ (vpath : String) (files : List ScannedFile) (idSupply : Nat) (f : ScannedFile),
        f ∈ files →
        (SkillRegistry.getRoutingDecision f.extension).method = .unsupported →
        ("Unsupported file type: " ++ f.extension, f.path) ∈
          (buildQueueItems vpath files idSupply).1) := by
  refine ⟨?_, ?_, ?_, ?_, ?_, ?_⟩
  · intro ext h1 h2 h3
    simp [SkillRegistry.getRoutingDecision, h1, h2, h3]
  · intro ext h1
    simp [SkillRegistry.getRoutingDecision, h1]
  · intro ext h1 h2
    simp [SkillRegistry.getRoutingDecision, h1, h2]
  · intro ext m h1 h2 h3
    by_cases hd : m.outputFormat = "directory" <;>
      simp [SkillRegistry.getRoutingDecision, h1, h2, h3, hd]
  · exact fun vpath files => buildQueueItems_not_unsupported vpath files
  · exact fun vpath files => buildQueueItems_warns vpath files

/-- C6 witness: `".xyz"` is in none of the tables and routes to
`unsupported`; a course containing only `blob.xyz` queues nothing and logs
the warning. -/
theorem c6_witness :
    (SkillRegistry.getRoutingDecision ".xyz").method = .unsupported
    ∧ ((buildQueueItems "/v" [demoUnsupportedFile] 0).2 = []
        → (SkillRegistry.getRoutingDecision ".mp4").method = .skip)
    ∧ ("Unsupported file type: " ++ demoUnsupportedFile.extension,
        demoUnsupportedFile.path) ∈ (buildQueueItems "/v" [demoUnsupportedFile] 0).1 := by
  refine ⟨?_, ?_, ?_⟩
  · exact c6_unsupported_never_queued.1 ".xyz" (by decide) (by decide) (by decide)
  · intro _
    exact c6_unsupported_never_queued.2.1 ".mp4" (by decide)
  · exact c6_unsupported_never_queued.2.2.2.2.2 "/v" [demoUnsupportedFile] 0
      demoUnsupportedFile (by decide) (by decide)

/-! ## C7 -/

theorem skip_extension_categorizes_media :
    ∀ e ∈ SKIP_EXTENSIONS,
      Scanner.categorizeFile e = .video ∨ Scanner.categorizeFile e = .audio := by
  decide

theorem scanList_members (opts : Scanner.ScanOptions) (courseId coursePath : String) :
    ∀ (currentPath : String) (entries : List Scanner.FSEntry) (f : ScannedFile),
      f ∈ Scanner.scanList opts courseId coursePath currentPath entries →
      f.category ≠ .video ∧ f.category ≠ .audio ∧
      f.category = Scanner.categorizeFile f.extension := by
  intro currentPath entries
  induction currentPath, entries using Scanner.scanList.induct opts courseId coursePath with
  | case1 => intro f hf; simp [Scanner.scanList] at hf
  | case2 currentPath name size rest ih =>
    intro f hf
    simp only [Scanner.scanList, List.mem_append] at hf
    rcases hf with hf | hf
    · by_cases h1 : Scanner.skipsEntryName opts name
      · simp [h1] at hf
      · simp only [h1] at hf
        by_cases h2 : Scanner.shouldExclude opts (joinPath currentPath name)
        · simp [h2] at hf
        · simp only [h2] at hf
          set g := Scanner.mkScannedFile courseId coursePath
            (joinPath currentPath name) name size with hg
          by_cases h3 : g.category = .video ∨ g.category = .audio
          · simp [h3] at hf
          · simp only [h3] at hf
            simp at hf
            subst hf
            push_neg at h3
            exact ⟨h3.1, h3.2, rfl⟩
    · exact ih f hf
  | case3 currentPath name entries rest ih1 ih2 =>
    intro f hf
    simp only [Scanner.scanList, List.mem_append] at hf
    rcases hf with hf | hf
    · by_cases h1 : Scanner.skipsEntryName opts name
      · simp [h1] at hf
      · simp only [h1] at hf
        by_cases h2 : Scanner.shouldExclude opts (joinPath currentPath name)
        · simp [h2] at hf
        · simp only [h2] at hf
          by_cases h3 : opts.recursive
          · simp only [h3] at hf
            simp at hf
            exact ih1 f hf
          · simp [h3] at hf
    · exact ih2 f hf

/-- C7: the scanner's output never contains a file whose extension is in the
skip-set: any file categorized `video` or `audio` is dropped inside
`scanRecursive` before being pushed, and every skip-set extension
categorizes to `video` or `audio`. -/
theorem c7_skip_set_never_scanned :
    ∀ (opts : Scanner.ScanOptions) (courseId coursePath currentPath : String)
      (entries : List Scanner.FSEntry) (f : ScannedFile),
      f ∈ Scanner.scanList opts courseId coursePath currentPath entries →
      f.category ≠ .video ∧ f.category ≠ .audio ∧ f.extension ∉ SKIP_EXTENSIONS := by
  intro opts courseId coursePath currentPath entries f hf
  obtain ⟨hv, ha, hcat⟩ := scanList_members opts courseId coursePath currentPath entries f hf
  refine ⟨hv, ha, fun hmem => ?_⟩
  rcases skip_extension_categorizes_media f.extension hmem with h | h
  · exact hv (hcat.trans h)
  · exact ha (hcat.trans h)

/-- C7 witness: scanning the demo tree keeps `a.txt` (and drops `clip.mp4`
and `song.mp3` — the scan yields exactly the three non-media files). -/
theorem c7_witness :
    (Scanner.mkScannedFile "c1" "/in/c1" "/in/c1/a.txt" "a.txt" 1) ∈
      Scanner.scanList {} "c1" "/in/c1" "/in/c1" demoTree ∧
    ((Scanner.mkScannedFile "c1" "/in/c1" "/in/c1/a.txt" "a.txt" 1).category ≠ .video ∧
     (Scanner.mkScannedFile "c1" "/in/c1" "/in/c1/a.txt" "a.txt" 1).category ≠ .audio ∧
     (Scanner.mkScannedFile "c1" "/in/c1" "/in/c1/a.txt" "a.txt" 1).extension ∉ SKIP_EXTENSIONS) := by
  constructor
  · simp [Scanner.scanList, demoTree]
    decide
  · exact c7_skip_set_never_scanned {} "c1" "/in/c1" "/in/c1" demoTree
      (Scanner.mkScannedFile "c1" "/in/c1" "/in/c1/a.txt" "a.txt" 1)
      (by simp [Scanner.scanList, demoTree]; decide)

/-! ## Queue lemmas -/

theorem addProc_length_le (l : List String) (id : String) :
    (AsyncQueue.addProc l id).length ≤ l.length + 1 := by
  unfold AsyncQueue.addProc
  split
  · omega
  · simp

theorem notifyAux_processing_le (maxC : Nat) :
    ∀ (ws : List Nat) (its : List QueueItem) (proc : List String),
      proc.length ≤ maxC →
      (AsyncQueue.notifyAux maxC ws its proc).processing.length ≤ maxC := by
  intro ws
  induction ws with
  | nil => intro its proc h; simp [AsyncQueue.notifyAux]; exact h
  | cons w ws ih =>
    intro its proc h
    cases its with
    | nil => simp [AsyncQueue.notifyAux]; exact h
    | cons it its =>
      simp only [AsyncQueue.notifyAux]
      split
      · rename_i hlt
        have hp : (AsyncQueue.addProc proc it.id).length ≤ maxC := by
          have := addProc_length_le proc it.id
          omega
        simpa using ih its (AsyncQueue.addProc proc it.id) hp
      · simpa using h

theorem notifyAux_items_suffix (maxC : Nat) :
    ∀ (ws : List Nat) (its : List QueueItem) (proc : List String),
      ∃ k, (AsyncQueue.notifyAux maxC ws its proc).items = its.drop k := by
  intro ws
  induction ws with
  | nil => intro its proc; exact ⟨0, by simp [AsyncQueue.notifyAux]⟩
  | cons w ws ih =>
    intro its proc
    cases its with
    | nil => exact ⟨0, by simp [AsyncQueue.notifyAux]⟩
    | cons it its =>
      simp only [AsyncQueue.notifyAux]
      split
      · obtain ⟨k, hk⟩ := ih its (AsyncQueue.addProc proc it.id)
        exact ⟨k + 1, by simpa using hk⟩
      · exact ⟨0, by simp⟩

theorem notifyWaiters_fst (s : AsyncQueue.State) :
    let r := AsyncQueue.notifyAux s.maxConcurrent s.waiters s.items s.processing
    (AsyncQueue.notifyWaiters s).1 =
      { s with waiters := r.waiters, items := r.items, processing := r.processing } :=
  rfl

theorem notifyWaiters_maxConcurrent (s : AsyncQueue.State) :
    (AsyncQueue.notifyWaiters s).1.maxConcurrent = s.maxConcurrent := rfl

theorem notifyWaiters_failed (s : AsyncQueue.State) :
    (AsyncQueue.notifyWaiters s).1.failed = s.failed := rfl

theorem notifyWaiters_inv (W : Nat) (s : AsyncQueue.State) (h : InvQ W s) :
    InvQ W (AsyncQueue.notifyWaiters s).1 := by
  obtain ⟨hm, hp⟩ := h
  refine ⟨hm, ?_⟩
  have := notifyAux_processing_le s.maxConcurrent s.waiters s.items s.processing
    (by omega)
  rw [notifyWaiters_fst]
  simpa [hm] using this

theorem removeProc_length_le (l : List String) (id : String) :
    (AsyncQueue.removeProc l id).length ≤ l.length :=
  List.length_filter_le _ l

theorem inv_enqueue {W : Nat} {s s' : AsyncQueue.State} {ds} {item : QueueItem}
    (h : InvQ W s) (he : AsyncQueue.enqueue s item = some (s', ds)) : InvQ W s' := by
  unfold AsyncQueue.enqueue at he
  split at he
  · exact absurd he (by simp)
  · have h1 : InvQ W { s with items := AsyncQueue.sortItems (s.items ++ [item]) } := h
    have := notifyWaiters_inv W _ h1
    have hs' : s' = (AsyncQueue.notifyWaiters
        { s with items := AsyncQueue.sortItems (s.items ++ [item]) }).1 := by
      have := congrArg Prod.fst (Option.some.inj he)
      exact this.symm
    rw [hs']
    exact this

theorem inv_enqueueMany {W : Nat} {s s' : AsyncQueue.State} {ds} {newItems : List QueueItem}
    (h : InvQ W s) (he : AsyncQueue.enqueueMany s newItems = some (s', ds)) : InvQ W s' := by
  unfold AsyncQueue.enqueueMany at he
  split at he
  · exact absurd he (by simp)
  · have h1 : InvQ W { s with items := AsyncQueue.sortItems (s.items ++ newItems) } := h
    have := notifyWaiters_inv W _ h1
    have hs' : s' = (AsyncQueue.notifyWaiters
        { s with items := AsyncQueue.sortItems (s.items ++ newItems) }).1 := by
      have := congrArg Prod.fst (Option.some.inj he)
      exact this.symm
    rw [hs']
    exact this

theorem addProc_bound {l : List String} {maxC : Nat} (h : l.length < maxC)
    (id : String) : (AsyncQueue.addProc l id).length ≤ maxC := by
  have := addProc_length_le l id
  omega

theorem inv_dequeue {W : Nat} {s : AsyncQueue.State} (h : InvQ W s) :
    InvQ W (AsyncQueue.dequeue s).2 := by
  obtain ⟨hm, hp⟩ := h
  unfold AsyncQueue.dequeue
  split
  · split
    · exact ⟨hm, hp⟩
    · exact ⟨hm, hp⟩
  · split
    · rename_i hlt
      exact ⟨hm, hm ▸ addProc_bound hlt _⟩
    · split
      · exact ⟨hm, hp⟩
      · exact ⟨hm, hp⟩

theorem inv_markCompleted {W : Nat} {s : AsyncQueue.State} (item : QueueItem)
    (h : InvQ W s) : InvQ W (AsyncQueue.markCompleted s item).1 := by
  obtain ⟨hm, hp⟩ := h
  unfold AsyncQueue.markCompleted
  apply notifyWaiters_inv
  refine ⟨hm, ?_⟩
  have := removeProc_length_le s.processing item.id
  simp only
  omega

theorem inv_markFailed {W : Nat} {s : AsyncQueue.State} (item : QueueItem)
    (code message : String) (h : InvQ W s) :
    InvQ W (AsyncQueue.markFailed s item code message).1 := by
  obtain ⟨hm, hp⟩ := h
  unfold AsyncQueue.markFailed
  apply notifyWaiters_inv
  refine ⟨hm, ?_⟩
  have := removeProc_length_le s.processing item.id
  simp only
  omega

theorem inv_markSkipped {W : Nat} {s : AsyncQueue.State} (item : QueueItem)
    (reason : String) (h : InvQ W s) :
    InvQ W (AsyncQueue.markSkipped s item reason).1 := by
  obtain ⟨hm, hp⟩ := h
  unfold AsyncQueue.markSkipped
  apply notifyWaiters_inv
  refine ⟨hm, ?_⟩
  have := removeProc_length_le s.processing item.id
  simp only
  omega

theorem inv_requeue {W : Nat} {s : AsyncQueue.State} (item : QueueItem)
    (h : InvQ W s) : InvQ W (AsyncQueue.requeue s item).1 := by
  obtain ⟨hm, hp⟩ := h
  have hrem := removeProc_length_le s.processing item.id
  unfold AsyncQueue.requeue
  dsimp only
  split
  · apply notifyWaiters_inv
    exact ⟨hm, by dsimp only; omega⟩
  · apply notifyWaiters_inv
    apply inv_markFailed
    exact ⟨hm, by dsimp only; omega⟩

theorem inv_close {W : Nat} {s : AsyncQueue.State} (h : InvQ W s) :
    InvQ W (AsyncQueue.close s).1 := h

theorem reachable_inv {W : Nat} {s : AsyncQueue.State}
    (h : AsyncQueue.Reachable W s) : InvQ W s := by
  induction h with
  | init => exact ⟨rfl, by simp [AsyncQueue.init]⟩
  | enqueue _ he ih => exact inv_enqueue ih he
  | enqueueMany _ he ih => exact inv_enqueueMany ih he
  | dequeue _ ih => exact inv_dequeue ih
  | markCompleted _ ih => exact inv_markCompleted _ ih
  | markFailed _ ih => exact inv_markFailed _ _ _ ih
  | markSkipped _ ih => exact inv_markSkipped _ _ ih
  | requeue _ ih => exact inv_requeue _ ih
  | close _ ih => exact inv_close ih

/-! ## C1 -/

/-- C1: in every reachable state of a queue created with concurrency limit
`W` (as `WorkerPool`'s constructor does with `W` = worker count), at most `W`
items are in the `processing` set, and applying any queue operation to a
reachable state keeps the count at most `W`. -/
theorem c1_processing_bounded :
    ∀ (W : Nat) (s : AsyncQueue.State), AsyncQueue.Reachable W s →
      s.processing.length ≤ W
      ∧ (∀ item s' ds, AsyncQueue.enqueue s item = some (s', ds) →
          s'.processing.length ≤ W)
      ∧ (∀ newItems s' ds, AsyncQueue.enqueueMany s newItems = some (s', ds) →
          s'.processing.length ≤ W)
      ∧ ((AsyncQueue.dequeue s).2.processing.length ≤ W)
      ∧ (∀ item, (AsyncQueue.markCompleted s item).1.processing.length ≤ W)
      ∧ (∀ item code message,
          (AsyncQueue.markFailed s item code message).1.processing.length ≤ W)
      ∧ (∀ item reason,
          (AsyncQueue.markSkipped s item reason).1.processing.length ≤ W)
      ∧ (∀ item, (AsyncQueue.requeue s item).1.processing.length ≤ W)
      ∧ ((AsyncQueue.close s).1.processing.length ≤ W) := by
  intro W s h
  refine ⟨(reachable_inv h).2, ?_, ?_, ?_, ?_, ?_, ?_, ?_, ?_⟩
  · intro item s' ds he
    exact (reachable_inv (AsyncQueue.Reachable.enqueue h he)).2
  · intro newItems s' ds he
    exact (reachable_inv (AsyncQueue.Reachable.enqueueMany h he)).2
  · exact (reachable_inv (AsyncQueue.Reachable.dequeue h)).2
  · intro item
    exact (reachable_inv (AsyncQueue.Reachable.markCompleted h)).2
  · intro item code message
    exact (reachable_inv (AsyncQueue.Reachable.markFailed h)).2
  · intro item reason
    exact (reachable_inv (AsyncQueue.Reachable.markSkipped h)).2
  · intro item
    exact (reachable_inv (AsyncQueue.Reachable.requeue h)).2
  · exact (reachable_inv (AsyncQueue.Reachable.close h)).2

/-- C1 witness: a queue with limit 2 after one enqueue and one dequeue is
reachable and has one processing item, at most 2 by the theorem. -/
theorem c1_witness :
    ((AsyncQueue.dequeue scenarioBQueue).2.processing.length ≤ 1
      ∧ (AsyncQueue.dequeue scenarioBQueue).2.processing.length = 1) := by
  have hr : AsyncQueue.Reachable 1 scenarioBQueue :=
    AsyncQueue.Reachable.enqueue AsyncQueue.Reachable.init
      (show AsyncQueue.enqueue (AsyncQueue.init 1) (demoItem "x" 0) = some _ from rfl)
  have hb := (c1_processing_bounded 1 scenarioBQueue hr).2.2.2.1
  exact ⟨hb, by decide⟩

/-! ## C2 -/

/-- C2, counterexample: the state reached by enqueueing one item, dequeueing
it, and closing the queue is closed, has no pending items, and still has one
item processing — yet `dequeue` *does* return the `null` sentinel there
(the source only checks `closed && items.length === 0`, never the
`processing` set). -/
theorem c2_counterexample :
    AsyncQueue.Reachable 1 closedDrainedState
    ∧ closedDrainedState.closed = true
    ∧ closedDrainedState.items = []
    ∧ closedDrainedState.processing = ["a"]
    ∧ (AsyncQueue.dequeue closedDrainedState).1 = .sentinel := by
  refine ⟨?_, by decide, by decide, by decide, by decide⟩
  exact AsyncQueue.Reachable.close (AsyncQueue.Reachable.dequeue
    (AsyncQueue.Reachable.enqueue AsyncQueue.Reachable.init
      (show AsyncQueue.enqueue (AsyncQueue.init 1) (demoItem "a" 0) = some _ from rfl)))

/-- C2, amended: `dequeue` returns the no-more-work sentinel exactly when the
queue is closed and either no pending item remains or every concurrency slot
is taken; in-flight `processing` items are not consulted, so a closed queue
with empty pending and nonempty processing receives the sentinel. -/
theorem c2_sentinel_iff :
    ∀ s : AsyncQueue.State,
      (AsyncQueue.dequeue s).1 = .sentinel ↔
        s.closed = true ∧ (s.items = [] ∨ s.maxConcurrent ≤ s.processing.length) := by
  intro s
  unfold AsyncQueue.dequeue
  split
  · rename_i heq
    split
    · rename_i hc
      simp [hc, heq]
    · rename_i hc
      simp only [Bool.not_eq_true] at hc
      simp [hc, heq]
  · rename_i item rest heq
    split
    · rename_i hlt
      constructor
      · intro hcon
        exact absurd hcon (by simp)
      · rintro ⟨hc, hor⟩
        rcases hor with hnil | hge
        · rw [heq] at hnil
          simp at hnil
        · omega
    · rename_i hge
      split
      · rename_i hc
        simp [heq, hc]
        omega
      · rename_i hc
        simp only [Bool.not_eq_true] at hc
        simp [hc, heq]

/-! ## Sorting lemmas for C3 -/

theorem insertItem_mem (x : QueueItem) :
    ∀ (l : List QueueItem) (z : QueueItem),
      z ∈ AsyncQueue.insertItem x l ↔ z = x ∨ z ∈ l := by
  intro l
  induction l with
  | nil => intro z; simp [AsyncQueue.insertItem]
  | cons y ys ih =>
    intro z
    simp only [AsyncQueue.insertItem]
    split
    · simp [List.mem_cons]
    · simp only [List.mem_cons, ih]
      tauto

theorem insertItem_sorted (x : QueueItem) :
    ∀ l, PrioritySorted l → PrioritySorted (AsyncQueue.insertItem x l) := by
  intro l
  induction l with
  | nil => intro _; simp [AsyncQueue.insertItem, PrioritySorted]
  | cons y ys ih =>
    intro h
    rw [PrioritySorted, List.pairwise_cons] at h
    obtain ⟨hy, hys⟩ := h
    simp only [AsyncQueue.insertItem]
    split
    · rename_i hlt
      rw [PrioritySorted, List.pairwise_cons]
      refine ⟨?_, List.pairwise_cons.mpr ⟨hy, hys⟩⟩
      intro z hz
      rcases List.mem_cons.mp hz with rfl | hz
      · exact le_of_lt hlt
      · exact le_trans (le_of_lt hlt) (hy z hz)
    · rename_i hge
      rw [PrioritySorted, List.pairwise_cons]
      refine ⟨?_, ih hys⟩
      intro z hz
      rcases (insertItem_mem x ys z).mp hz with rfl | hz
      · exact not_lt.mp hge
      · exact hy z hz

theorem sortItems_sorted_aux :
    ∀ (l acc : List QueueItem), PrioritySorted acc →
      PrioritySorted (l.foldl (fun a x => AsyncQueue.insertItem x a) acc) := by
  intro l
  induction l with
  | nil => intro acc h; simpa using h
  | cons x xs ih =>
    intro acc h
    simp only [List.foldl_cons]
    exact ih _ (insertItem_sorted x acc h)

theorem sortItems_sorted (l : List QueueItem) :
    PrioritySorted (AsyncQueue.sortItems l) :=
  sortItems_sorted_aux l [] (by simp [PrioritySorted])

theorem filterPriority_gt_nil (p : Int) :
    ∀ (l : List QueueItem), (∀ z ∈ l, p < z.priority) → filterPriority p l = [] := by
  intro l hgt
  unfold filterPriority
  rw [List.filter_eq_nil_iff]
  intro a ha
  have := hgt a ha
  simp
  omega

theorem filterPriority_insertItem (p : Int) (x : QueueItem) :
    ∀ l, PrioritySorted l →
      filterPriority p (AsyncQueue.insertItem x l) =
        if x.priority = p then filterPriority p l ++ [x] else filterPriority p l := by
  intro l
  induction l with
  | nil =>
    intro _
    by_cases hxp : x.priority = p <;>
      simp [AsyncQueue.insertItem, filterPriority, List.filter, hxp]
  | cons y ys ih =>
    intro h
    rw [PrioritySorted, List.pairwise_cons] at h
    obtain ⟨hy, hys⟩ := h
    simp only [AsyncQueue.insertItem]
    split
    · rename_i hlt
      by_cases hxp : x.priority = p
      · have hnil : filterPriority p (y :: ys) = [] := by
          apply filterPriority_gt_nil
          intro z hz
          rcases List.mem_cons.mp hz with rfl | hz
          · omega
          · have := hy z hz
            omega
        unfold filterPriority at hnil ⊢
        simp [List.filter_cons, hxp, hnil]
      · unfold filterPriority
        simp [List.filter_cons, hxp]
    · rename_i hge
      have hrec := ih hys
      unfold filterPriority at hrec ⊢
      by_cases hxp : x.priority = p <;> by_cases hyp : y.priority = p <;>
        simp [List.filter_cons, hxp, hyp, hrec]

theorem filterPriority_sortItems_aux (p : Int) :
    ∀ (l acc : List QueueItem), PrioritySorted acc →
      filterPriority p (l.foldl (fun a x => AsyncQueue.insertItem x a) acc) =
        filterPriority p acc ++ filterPriority p l := by
  intro l
  induction l with
  | nil => intro acc h; simp [filterPriority]
  | cons x xs ih =>
    intro acc h
    simp only [List.foldl_cons]
    rw [ih _ (insertItem_sorted x acc h)]
    rw [filterPriority_insertItem p x acc h]
    by_cases hxp : x.priority = p
    · rw [if_pos hxp]
      unfold filterPriority
      simp only [List.filter_cons]
      rw [if_pos (by simp [hxp])]
      simp
    · rw [if_neg hxp]
      unfold filterPriority
      simp only [List.filter_cons]
      rw [if_neg (by simp [hxp])]

theorem filterPriority_sortItems (p : Int) (l : List QueueItem) :
    filterPriority p (AsyncQueue.sortItems l) = filterPriority p l := by
  have := filterPriority_sortItems_aux p l [] (by simp [PrioritySorted])
  simpa [AsyncQueue.sortItems, filterPriority] using this

theorem enqueue_sorted_stable (s : AsyncQueue.State) (item : QueueItem)
    (s' : AsyncQueue.State) (ds : List (Nat × QueueItem))
    (he : AsyncQueue.enqueue s item = some (s', ds)) :
    PrioritySorted s'.items ∧
    ∃ k, s'.items = (AsyncQueue.sortItems (s.items ++ [item])).drop k := by
  unfold AsyncQueue.enqueue at he
  split at he
  · exact absurd he (by simp)
  · have hs' : s' = (AsyncQueue.notifyWaiters
        { s with items := AsyncQueue.sortItems (s.items ++ [item]) }).1 :=
      (congrArg Prod.fst (Option.some.inj he)).symm
    subst hs'
    rw [notifyWaiters_fst]
    obtain ⟨k, hk⟩ := notifyAux_items_suffix s.maxConcurrent s.waiters
      (AsyncQueue.sortItems (s.items ++ [item])) s.processing
    constructor
    · dsimp only
      rw [hk]
      exact List.Pairwise.sublist (List.drop_sublist k _) (sortItems_sorted _)
    · exact ⟨k, hk⟩

theorem enqueueMany_sorted_stable (s : AsyncQueue.State) (newItems : List QueueItem)
    (s' : AsyncQueue.State) (ds : List (Nat × QueueItem))
    (he : AsyncQueue.enqueueMany s newItems = some (s', ds)) :
    PrioritySorted s'.items ∧
    ∃ k, s'.items = (AsyncQueue.sortItems (s.items ++ newItems)).drop k := by
  unfold AsyncQueue.enqueueMany at he
  split at he
  · exact absurd he (by simp)
  · have hs' : s' = (AsyncQueue.notifyWaiters
        { s with items := AsyncQueue.sortItems (s.items ++ newItems) }).1 :=
      (congrArg Prod.fst (Option.some.inj he)).symm
    subst hs'
    rw [notifyWaiters_fst]
    obtain ⟨k, hk⟩ := notifyAux_items_suffix s.maxConcurrent s.waiters
      (AsyncQueue.sortItems (s.items ++ newItems)) s.processing
    constructor
    · dsimp only
      rw [hk]
      exact List.Pairwise.sublist (List.drop_sublist k _) (sortItems_sorted _)
    · exact ⟨k, hk⟩

/-! ## C3 -/

/-- C3: five items with priorities `[3,1,2,1,0]` submitted to a
concurrency-1 queue are acquired in priority order `[0,1,1,2,3]`, with the
two priority-1 items (`"b"` submitted before `"d"`) in submission order; in
general every successful `enqueue`/`enqueueMany` leaves the pending set a
suffix of the stable priority-ascending sort of the old pending set plus the
new items — ordered by ascending priority, and preserving arrival order
within every fixed priority value. -/
theorem c3_priority_ordering :
    (scenarioARun.acquired.map (fun it => it.priority) = [0, 1, 1, 2, 3]
      ∧ scenarioARun.acquired.map (fun it => it.id) = ["e", "b", "d", "c", "a"])
    ∧ (∀ (s : AsyncQueue.State) (item : QueueItem) s' ds,
        AsyncQueue.enqueue s item = some (s', ds) →
        PrioritySorted s'.items ∧
        ∃ k, s'.items = (AsyncQueue.sortItems (s.items ++ [item])).drop k)
    ∧ (∀ (s : AsyncQueue.State) (newItems : List QueueItem) s' ds,
        AsyncQueue.enqueueMany s newItems = some (s', ds) →
        PrioritySorted s'.items ∧
        ∃ k, s'.items = (AsyncQueue.sortItems (s.items ++ newItems)).drop k)
    ∧ (∀ (p : Int) (l : List QueueItem),
        filterPriority p (AsyncQueue.sortItems l) = filterPriority p l) := by
  refine ⟨⟨by decide, by decide⟩, ?_, ?_, ?_⟩
  · exact enqueue_sorted_stable
  · exact enqueueMany_sorted_stable
  · exact filterPriority_sortItems

/-- C3 witness: enqueueing a sixth item into the scenario-A queue succeeds
and leaves the pending set priority-sorted. -/
theorem c3_witness :
    ∃ s' ds, AsyncQueue.enqueue scenarioAQueue (demoItem "f" 2) = some (s', ds)
      ∧ PrioritySorted s'.items := by
  refine ⟨_, _, rfl, ?_⟩
  exact (c3_priority_ordering.2.1 scenarioAQueue (demoItem "f" 2) _ _ rfl).1

theorem mapFind_mapSet_self :
    ∀ (m : List (String × QueueItem)) (k : String) (v : QueueItem),
      AsyncQueue.mapFind (AsyncQueue.mapSet m k v) k = some v := by
  intro m k v
  induction m with
  | nil => simp [AsyncQueue.mapSet, AsyncQueue.mapFind]
  | cons p ps ih =>
    by_cases hk : p.1 = k
    · simp [AsyncQueue.mapSet, AsyncQueue.mapFind, hk]
    · simp [AsyncQueue.mapSet, AsyncQueue.mapFind, hk, ih]

/-! ## C4 -/

/-- C4: with `maxAttempts = 3` and a processor that always returns
`success: false` with a recoverable error, the item is acquired exactly 3
times (attempt counter 0, 1, 2), then lands in `failed` with the fixed
max-attempts error code `MAX_ATTEMPTS` and is never acquired again (extra
fuel acquires nothing more, pending is empty); in general `requeue`
increments the attempt counter and, while attempts remain, reinserts the
item into pending at its original priority, otherwise records the
max-attempts failure. -/
theorem c4_retry_exhaustion :
    (scenarioBRun.acquired.map (fun it => (it.id, it.attempts)) =
        [("x", 0), ("x", 1), ("x", 2)]
      ∧ (WorkerPool.waitForCompletion1 alwaysRecoverableFail 50 scenarioBQueue).acquired =
          scenarioBRun.acquired
      ∧ scenarioBRun.q.items = []
      ∧ AsyncQueue.mapFind scenarioBRun.q.failed "x" =
          some { demoItem "x" 0 with
                 status := .failed, attempts := 3, startedAt := some (),
                 completedAt := some (),
                 error := some ⟨"MAX_ATTEMPTS", "Exceeded max attempts (3)", false⟩ })
    ∧ (∀ (s : AsyncQueue.State) (item : QueueItem),
        item.attempts + 1 < item.maxAttempts → s.waiters = [] →
        (AsyncQueue.requeue s item).1.items =
          AsyncQueue.sortItems (s.items ++
            [{ item with attempts := item.attempts + 1, status := .pending }]))
    ∧ (∀ (s : AsyncQueue.State) (item : QueueItem),
        ¬ item.attempts + 1 < item.maxAttempts →
        AsyncQueue.mapFind (AsyncQueue.requeue s item).1.failed item.id =
          some { item with
                 attempts := item.attempts + 1, status := .failed,
                 completedAt := some (),
                 error := some ⟨"MAX_ATTEMPTS",
                   "Exceeded max attempts (" ++ toString item.maxAttempts ++ ")",
                   false⟩ }) := by
  refine ⟨⟨by decide, by decide, by decide, by decide⟩, ?_, ?_⟩
  · intro s item hlt hw
    unfold AsyncQueue.requeue
    rw [if_pos hlt]
    unfold AsyncQueue.notifyWaiters
    rw [hw]
    simp [AsyncQueue.notifyAux]
  · intro s item hge
    unfold AsyncQueue.requeue
    rw [if_neg hge]
    dsimp only
    rw [show ∀ t : AsyncQueue.State, (AsyncQueue.notifyWaiters t).1.failed = t.failed
        from fun t => rfl]
    unfold AsyncQueue.markFailed
    rw [show ∀ t : AsyncQueue.State, (AsyncQueue.notifyWaiters t).1.failed = t.failed
        from fun t => rfl]
    dsimp only
    exact mapFind_mapSet_self _ _ _

/-- C4 witness: `requeue` on the dequeued scenario-B item (attempts 0 of 3)
reinserts it as pending with one more attempt; on an exhausted item
(attempts 2 of 3) it records the `MAX_ATTEMPTS` failure. -/
theorem c4_witness :
    ((AsyncQueue.requeue (AsyncQueue.dequeue scenarioBQueue).2
        (demoItem "x" 0)).1.items =
      AsyncQueue.sortItems ((AsyncQueue.dequeue scenarioBQueue).2.items ++
        [{ demoItem "x" 0 with attempts := 1, status := .pending }]))
    ∧ (AsyncQueue.mapFind (AsyncQueue.requeue (AsyncQueue.init 1)
        { demoItem "x" 0 with attempts := 2 }).1.failed "x" =
      some { demoItem "x" 0 with
             attempts := 3, status := .failed, completedAt := some (),
             error := some ⟨"MAX_ATTEMPTS", "Exceeded max attempts (3)", false⟩ }) := by
  constructor
  · exact c4_retry_exhaustion.2.1 (AsyncQueue.dequeue scenarioBQueue).2
      (demoItem "x" 0) (by decide) (by decide)
  · exact c4_retry_exhaustion.2.2 (AsyncQueue.init 1)
      { demoItem "x" 0 with attempts := 2 } (by decide)

/-! ## C9 -/

/-- C9: a processor that throws is caught by the worker loop, which records a
non-recoverable `PROCESSOR_ERROR` on the item and therefore marks it failed
on the first occurrence even though attempts remain below `maxAttempts`
(both demo items fail with `attempts = 0 < 3` and are never retried), and
the loop continues with the next item; in general every cycle whose
processor call throws ends in `markFailed` with that error, never `requeue`. -/
theorem c9_thrown_exception_fails_item :
    (scenarioThrowRun.acquired.map (fun it => it.id) = ["y", "z"]
      ∧ scenarioThrowRun.results =
          [{ itemId := "y", success := false }, { itemId := "z", success := false }]
      ∧ AsyncQueue.mapFind scenarioThrowRun.q.failed "y" =
          some { demoItem "y" 0 with
                 status := .failed, startedAt := some (), completedAt := some (),
                 error := some ⟨"PROCESSOR_ERROR", "boom", false⟩ }
      ∧ AsyncQueue.mapFind scenarioThrowRun.q.failed "z" =
          some { demoItem "z" 1 with
                 status := .failed, startedAt := some (), completedAt := some (),
                 error := some ⟨"PROCESSOR_ERROR", "boom", false⟩ }
      ∧ (demoItem "y" 0).attempts < (demoItem "y" 0).maxAttempts
      ∧ scenarioThrowRun.q.items = [])
    ∧ (∀ (proc : QueueItem → WorkerPool.ProcEffect) (rs : WorkerPool.RunState)
        (item : QueueItem) (q1 : AsyncQueue.State) (msg : String),
        AsyncQueue.dequeue rs.q = (.got item, q1) →
        proc { item with status := .processing, startedAt := some () } = .thrown msg →
        WorkerPool.workerCycle proc rs = some
          { q := (AsyncQueue.markFailed q1
              { item with
                status := .processing, startedAt := some (),
                error := some ⟨"PROCESSOR_ERROR", msg, false⟩ }
              "PROCESSOR_ERROR" msg).1,
            results := rs.results ++ [{ itemId := item.id, success := false }],
            acquired := rs.acquired ++
              [{ item with status := .processing, startedAt := some () }] }) := by
  refine ⟨⟨by decide, by decide, by decide, by decide, by decide, by decide⟩, ?_⟩
  intro proc rs item q1 msg hdq hproc
  unfold WorkerPool.workerCycle
  rw [hdq]
  dsimp only
  rw [hproc]
  dsimp only
  rw [if_neg (by simp [WorkerPool.errRecoverable])]
  rfl

/-- C9 witness: the general cycle shape applied to the first item of the
thrown-exception scenario. -/
theorem c9_witness :
    ∃ rs', WorkerPool.workerCycle alwaysThrows
        { q := (AsyncQueue.close scenarioCQueue).1, results := [], acquired := [] } =
        some rs'
      ∧ rs'.results = [{ itemId := "y", success := false }] := by
  have h := c9_thrown_exception_fails_item.2 alwaysThrows
    { q := (AsyncQueue.close scenarioCQueue).1, results := [], acquired := [] }
    (demoItem "y" 0)
    (AsyncQueue.dequeue (AsyncQueue.close scenarioCQueue).1).2 "boom"
    (by decide) rfl
  exact ⟨_, h, by decide⟩

/-! ## C10 -/

theorem workerCycle_lengths (proc : QueueItem → WorkerPool.ProcEffect)
    (rs rs' : WorkerPool.RunState)
    (h : WorkerPool.workerCycle proc rs = some rs') :
    rs'.results.length = rs.results.length + 1
    ∧ rs'.acquired.length = rs.acquired.length + 1 := by
  unfold WorkerPool.workerCycle at h
  rcases hdq : AsyncQueue.dequeue rs.q with ⟨out, q1⟩
  rw [hdq] at h
  cases out with
  | sentinel => simp at h
  | suspended w => simp at h
  | got item =>
    dsimp only at h
    rcases hp : proc { item with status := .processing, startedAt := some () } with
      ⟨success, errAfter⟩ | msg
    · rw [hp] at h
      dsimp only at h
      split at h <;>
        · have := Option.some.inj h
          subst this
          simp
    · rw [hp] at h
      dsimp only at h
      split at h <;>
        · have := Option.some.inj h
          subst this
          simp

/-- C10: one `ProcessingResult` is pushed per acquire-and-process cycle, not
per queue item: over any fuelled run of the worker loop the `results` and
`acquired` traces stay the same length, and in the retry scenario a single
submitted item yields three results — more results than items submitted. -/
theorem c10_results_per_attempt :
    (∀ (proc : QueueItem → WorkerPool.ProcEffect) (fuel : Nat)
        (rs : WorkerPool.RunState),
        rs.results.length = rs.acquired.length →
        (WorkerPool.runLoop proc fuel rs).results.length =
          (WorkerPool.runLoop proc fuel rs).acquired.length)
    ∧ scenarioBQueue.items.length = 1
    ∧ scenarioBRun.results.length = 3
    ∧ scenarioBRun.acquired.length = 3 := by
  refine ⟨?_, by decide, by decide, by decide⟩
  intro proc fuel
  induction fuel with
  | zero => intro rs h; simpa using h
  | succ n ih =>
    intro rs h
    unfold WorkerPool.runLoop
    rcases hc : WorkerPool.workerCycle proc rs with _ | rs'
    · simpa using h
    · dsimp only
      apply ih
      obtain ⟨h1, h2⟩ := workerCycle_lengths proc rs rs' hc
      omega

/-- C10 witness: a three-cycle run keeps the two traces equally long. -/
theorem c10_witness :
    (WorkerPool.runLoop alwaysOk 3
        { q := AsyncQueue.init 1, results := [], acquired := [] }).results.length =
      (WorkerPool.runLoop alwaysOk 3
        { q := AsyncQueue.init 1, results := [], acquired := [] }).acquired.length :=
  c10_results_per_attempt.1 alwaysOk 3
    { q := AsyncQueue.init 1, results := [], acquired := [] } (by decide)
